import Mathlib

/-!
Shallow embedding of the Live_CV_server desktop-auth handshake store
(`app/desktop_auth.py`) and the multi-step registration workflow
(`app/api/desktop_register.py`, `app/models.py`), with theorems settling
the specification claims about them.

Machine words are `Nat` with explicit `% 2 ^ 32` reductions; time is `Int`
(Python's `time.time()` compared by subtraction); Python dicts are
association lists with first-match lookup; fallible endpoints return a
result tag together with the post-state.
-/

namespace LiveCV

/-! ## SHA-256 (embedding of `hashlib.sha256` as used by
`pkce_challenge_from_verifier`), FIPS 180-4 over byte lists. -/

/-- 2 ^ 32, the word modulus of SHA-256. -/
def w32 : Nat := 4294967296

/-- Right rotation of a 32-bit word. -/
def rotr (x n : Nat) : Nat := ((x >>> n) ||| (x <<< (32 - n))) % w32

/-- SHA-256 Σ0. -/
def bigSigma0 (x : Nat) : Nat := (rotr x 2) ^^^ (rotr x 13) ^^^ (rotr x 22)

/-- SHA-256 Σ1. -/
def bigSigma1 (x : Nat) : Nat := (rotr x 6) ^^^ (rotr x 11) ^^^ (rotr x 25)

/-- SHA-256 σ0. -/
def smallSigma0 (x : Nat) : Nat := (rotr x 7) ^^^ (rotr x 18) ^^^ (x >>> 3)

/-- SHA-256 σ1. -/
def smallSigma1 (x : Nat) : Nat := (rotr x 17) ^^^ (rotr x 19) ^^^ (x >>> 10)

/-- SHA-256 Ch(x,y,z); ¬x is taken modulo 2 ^ 32. -/
def ch (x y z : Nat) : Nat := (x &&& y) ^^^ ((x ^^^ 4294967295) &&& z)

/-- SHA-256 Maj(x,y,z). -/
def maj (x y z : Nat) : Nat := (x &&& y) ^^^ (x &&& z) ^^^ (y &&& z)

/-- The 64 SHA-256 round constants. -/
def K256 : List Nat :=
  [1116352408, 1899447441, 3049323471, 3921009573, 961987163,
   1508970993, 2453635748, 2870763221, 3624381080, 310598401,
   607225278, 1426881987, 1925078388, 2162078206, 2614888103,
   3248222580, 3835390401, 4022224774, 264347078, 604807628,
   770255983, 1249150122, 1555081692, 1996064986, 2554220882,
   2821834349, 2952996808, 3210313671, 3336571891, 3584528711,
   113926993, 338241895, 666307205, 773529912, 1294757372,
   1396182291, 1695183700, 1986661051, 2177026350, 2456956037,
   2730485921, 2820302411, 3259730800, 3345764771, 3516065817,
   3600352804, 4094571909, 275423344, 430227734, 506948616,
   659060556, 883997877, 958139571, 1322822218, 1537002063,
   1747873779, 1955562222, 2024104815, 2227730452, 2361852424,
   2428436474, 2756734187, 3204031479, 3329325298]

/-- The SHA-256 initial hash value. -/
def H256 : List Nat :=
  [1779033703, 3144134277, 1013904242, 2773480762, 1359893119,
   2600822924, 528734635, 1541459225]

/-- Big-endian packing of bytes into 32-bit words (trailing non-multiple of 4 dropped;
never reached because padded inputs are block-aligned). -/
def bytesToWords : List Nat → List Nat
  | a :: b :: c :: d :: rest => (a * 16777216 + b * 65536 + c * 256 + d) :: bytesToWords rest
  | _ => []

/-- Append the next word of the message schedule to a schedule prefix of length ≥ 16. -/
def scheduleStep (ws : List Nat) : List Nat :=
  let n := ws.length
  ws ++ [(smallSigma1 (ws.getD (n - 2) 0) + ws.getD (n - 7) 0 +
          smallSigma0 (ws.getD (n - 15) 0) + ws.getD (n - 16) 0) % w32]

/-- The full 64-word message schedule of one block (given as its 16 words). -/
def mkSchedule (block : List Nat) : List Nat :=
  (List.range 48).foldl (fun ws _ => scheduleStep ws) block

/-- One SHA-256 compression round on working state [a,b,c,d,e,f,g,h]. -/
def sha256Round (st : List Nat) (k w : Nat) : List Nat :=
  match st with
  | [a, b, c, d, e, f, g, h] =>
    let t1 := (h + bigSigma1 e + ch e f g + k + w) % w32
    let t2 := (bigSigma0 a + maj a b c) % w32
    [(t1 + t2) % w32, a, b, c, (d + t1) % w32, e, f, g]
  | other => other

/-- Process one 64-byte block, updating the hash value. -/
def processBlock (hv : List Nat) (block : List Nat) : List Nat :=
  let ws := mkSchedule (bytesToWords block)
  let st := (K256.zip ws).foldl (fun st kw => sha256Round st kw.1 kw.2) hv
  (hv.zip st).map (fun p => (p.1 + p.2) % w32)

/-- Split a byte list into 64-byte blocks, with fuel for structural
recursion; the fuel never runs out when it starts at the list length. -/
def chunks64Fuel : Nat → List Nat → List (List Nat)
  | 0, _ => []
  | _, [] => []
  | fuel + 1, l => l.take 64 :: chunks64Fuel fuel (l.drop 64)

/-- Split a (padded) byte list into 64-byte blocks. -/
def chunks64 (l : List Nat) : List (List Nat) := chunks64Fuel l.length l

/-- The 8-byte big-endian encoding of the message bit length. -/
def lenBytes (bl : Nat) : List Nat :=
  [(bl >>> 56) % 256, (bl >>> 48) % 256, (bl >>> 40) % 256, (bl >>> 32) % 256,
   (bl >>> 24) % 256, (bl >>> 16) % 256, (bl >>> 8) % 256, bl % 256]

/-- SHA-256 padding: 0x80, zeros to 56 mod 64, then the 64-bit bit length. -/
def sha256Pad (msg : List Nat) : List Nat :=
  msg ++ [128] ++ List.replicate ((119 - msg.length % 64) % 64) 0 ++ lenBytes (8 * msg.length)

/-- Big-endian bytes of one 32-bit word. -/
def wordBytes (w : Nat) : List Nat :=
  [(w >>> 24) % 256, (w >>> 16) % 256, (w >>> 8) % 256, w % 256]

/-- SHA-256 digest (32 bytes) of a byte list. -/
def sha256 (msg : List Nat) : List Nat :=
  ((chunks64 (sha256Pad msg)).foldl processBlock H256).foldr
    (fun w acc => wordBytes w ++ acc) []

/-! ## UTF-8 and base64url, embedding `verifier.encode("utf-8")` and `_b64url`. -/

/-- UTF-8 encoding of one character (byte values as Nat). -/
def utf8EncodeCharNat (c : Char) : List Nat :=
  let n := c.toNat
  if n < 128 then [n]
  else if n < 2048 then [192 + n / 64, 128 + n % 64]
  else if n < 65536 then [224 + n / 4096, 128 + (n / 64) % 64, 128 + n % 64]
  else [240 + n / 262144, 128 + (n / 4096) % 64, 128 + (n / 64) % 64, 128 + n % 64]

/-- UTF-8 byte encoding of a string, as `s.encode("utf-8")` produces. -/
def utf8Bytes (s : String) : List Nat :=
  s.data.foldr (fun c acc => utf8EncodeCharNat c ++ acc) []

/-- The base64url alphabet used by `base64.urlsafe_b64encode`. -/
def b64urlAlphabet : List Char :=
  "ABCDEFGHIJKLMNOPQRSTUVWXYZabcdefghijklmnopqrstuvwxyz0123456789-_".data

/-- Character for a 6-bit group. -/
def b64Char (n : Nat) : Char := b64urlAlphabet.getD n 'A'

/-- base64url encoding without padding: groups of three bytes to four
characters, with the 1- and 2-byte leftovers encoded without `=`
(embedding `base64.urlsafe_b64encode(data).rstrip(b"=")`). -/
def b64Groups : List Nat → List Char
  | [] => []
  | [a] => [b64Char (a / 4), b64Char ((a % 4) * 16)]
  | [a, b] => [b64Char (a / 4), b64Char ((a % 4) * 16 + b / 16), b64Char ((b % 16) * 4)]
  | a :: b :: c :: rest =>
      b64Char (a / 4) :: b64Char ((a % 4) * 16 + b / 16) ::
      b64Char ((b % 16) * 4 + c / 64) :: b64Char (c % 64) :: b64Groups rest

/-- `_b64url(data)`: base64url without padding, as an ASCII string. -/
def b64url (data : List Nat) : String := String.mk (b64Groups data)

/-- `pkce_challenge_from_verifier(verifier)`: base64url of the SHA-256
digest of the UTF-8 encoded verifier, no padding. -/
def pkce_challenge_from_verifier (verifier : String) : String :=
  b64url (sha256 (utf8Bytes verifier))

/-! ## Handshake store (`app/desktop_auth.py`).

Python dicts become association lists with first-match lookup; key
assignment replaces the value at an existing key in place, else appends.
`time.time()` becomes an explicit `now : Int` argument, and
`secrets.token_urlsafe(24)` an explicit fresh-code argument. -/

/-- `d.get(k)` on a Python dict. -/
def lookupKey (l : List (String × α)) (k : String) : Option α :=
  (l.find? (fun kv => kv.1 == k)).map (fun kv => kv.2)

/-- `d[k] = v` on a Python dict: replace in place, else append. -/
def setKey : List (String × α) → String → α → List (String × α)
  | [], k, v => [(k, v)]
  | kv :: rest, k, v => if kv.1 == k then (k, v) :: rest else kv :: setKey rest k v

/-- `PendingLogin` dataclass. -/
structure PendingLogin where
  state : String
  redirect_uri : String
  code_challenge : String
  created_at : Int
deriving Repr, DecidableEq

/-- `AuthCode` dataclass. -/
structure AuthCode where
  code : String
  user_id : Int
  state : String
  code_challenge : String
  created_at : Int
  used : Bool := false
deriving Repr, DecidableEq

/-- `DesktopAuthStore` state: TTLs and the two dicts. -/
structure DesktopAuthStore where
  pending_ttl_s : Int := 600
  code_ttl_s : Int := 120
  pending : List (String × PendingLogin) := []
  codes : List (String × AuthCode) := []
deriving Repr, DecidableEq

/-- The `ValueError` messages raised by the store. -/
inductive AuthError
  | unknown_state
  | invalid_code
  | pkce_failed
deriving Repr, DecidableEq

/-- `DesktopAuthStore.cleanup`: drop expired pending logins, and expired
or used codes. -/
def DesktopAuthStore.cleanup (s : DesktopAuthStore) (now : Int) : DesktopAuthStore :=
  { s with
    pending := s.pending.filter (fun kv => decide (now - kv.2.created_at < s.pending_ttl_s)),
    codes := s.codes.filter
      (fun kv => decide (now - kv.2.created_at < s.code_ttl_s) && !kv.2.used) }

/-- `DesktopAuthStore.register_pending`. -/
def DesktopAuthStore.register_pending (s : DesktopAuthStore) (now : Int)
    (state redirect_uri code_challenge : String) : DesktopAuthStore :=
  let s := s.cleanup now
  { s with pending := setKey s.pending state ⟨state, redirect_uri, code_challenge, now⟩ }

/-- `DesktopAuthStore.get_pending`; the post-cleanup store is returned too. -/
def DesktopAuthStore.get_pending (s : DesktopAuthStore) (now : Int) (state : String) :
    Option PendingLogin × DesktopAuthStore :=
  let s := s.cleanup now
  (lookupKey s.pending state, s)

/-- `DesktopAuthStore.issue_code`; `fresh` is the value produced by
`secrets.token_urlsafe(24)`. -/
def DesktopAuthStore.issue_code (s : DesktopAuthStore) (now : Int) (fresh : String)
    (state : String) (user_id : Int) : Except AuthError AuthCode × DesktopAuthStore :=
  let s := s.cleanup now
  match lookupKey s.pending state with
  | none => (.error .unknown_state, s)
  | some pending =>
    let auth_code : AuthCode :=
      { code := fresh, user_id := user_id, state := state,
        code_challenge := pending.code_challenge, created_at := now }
    (.ok auth_code, { s with codes := setKey s.codes fresh auth_code })

/-- The in-place `auth_code.used = True` mutation: the dict entry for
`code` gets its `used` flag set. -/
def markUsed (codes : List (String × AuthCode)) (code : String) : List (String × AuthCode) :=
  codes.map (fun kv => if kv.1 == code then (kv.1, { kv.2 with used := true }) else kv)

/-- `DesktopAuthStore.exchange_code`: cleanup, look the code up, reject
used/missing codes, verify PKCE, then mark used and return the user id. -/
def DesktopAuthStore.exchange_code (s : DesktopAuthStore) (now : Int)
    (code code_verifier : String) : Except AuthError Int × DesktopAuthStore :=
  let s := s.cleanup now
  match lookupKey s.codes code with
  | none => (.error .invalid_code, s)
  | some auth_code =>
    if auth_code.used then (.error .invalid_code, s)
    else if pkce_challenge_from_verifier code_verifier ≠ auth_code.code_challenge then
      (.error .pkce_failed, s)
    else (.ok auth_code.user_id, { s with codes := markUsed s.codes code })

/-! ## Registration workflow (`app/models.py`, `app/api/desktop_register.py`).

Rows are records in lists; primary keys are explicit arguments where the
database or `uuid4` would generate them.  HTML rendering is dropped: each
handler returns a result tag together with the post-commit database.
Stripe is an external collaborator: `register_payment_start` receives the
created checkout session id, and `register_payment_success` receives the
outcome of `stripe.checkout.Session.retrieve`. -/

/-- `User` row. -/
structure UserRec where
  id : Int
  email : String
  password_hash : String
  role : String := "user"
  email_verified_at : Option Int := none
deriving Repr, DecidableEq

/-- `UserProfile` row. -/
structure UserProfileRec where
  user_id : Int
  first_name : String
  last_name : String
  address : String
  country : String
deriving Repr, DecidableEq

/-- `RegistrationSession` row.  The model default for `step` is 1. -/
structure RegistrationSession where
  id : String
  user_id : Int
  step : Int := 1
  status : String := "in_progress"
  stripe_checkout_session_id : Option String := none
  paid_at : Option Int := none
deriving Repr, DecidableEq

/-- The three tables the workflow touches. -/
structure DB where
  users : List UserRec := []
  profiles : List UserProfileRec := []
  sessions : List RegistrationSession := []
deriving Repr, DecidableEq

/-- `db.get(RegistrationSession, reg_id)` (`_get_reg`). -/
def DB.findSession (db : DB) (reg : String) : Option RegistrationSession :=
  db.sessions.find? (fun s => s.id == reg)

/-- `db.get(User, user_id)`. -/
def DB.findUser (db : DB) (uid : Int) : Option UserRec :=
  db.users.find? (fun u => u.id == uid)

/-- `db.query(UserProfile).filter(UserProfile.user_id == uid).first()`. -/
def DB.findProfile (db : DB) (uid : Int) : Option UserProfileRec :=
  db.profiles.find? (fun p => p.user_id == uid)

/-- `db.delete(row)`: remove the first row matching the predicate (the
row object itself, located by primary key). -/
def eraseFirst (p : α → Bool) : List α → List α
  | [] => []
  | x :: xs => if p x then xs else x :: eraseFirst p xs

/-- Mutate the first row matching the predicate (the ORM mutates the
fetched row, found by primary key, in place and commits). -/
def updateFirst (p : α → Bool) (f : α → α) : List α → List α
  | [] => []
  | x :: xs => if p x then f x :: xs else x :: updateFirst p f xs

/-- Apply an update to the stored session with the given id. -/
def DB.updateSession (db : DB) (reg : String) (f : RegistrationSession → RegistrationSession) :
    DB :=
  { db with sessions := updateFirst (fun s => s.id == reg) f db.sessions }

/-- Apply an update to the stored user with the given id. -/
def DB.updateUser (db : DB) (uid : Int) (f : UserRec → UserRec) : DB :=
  { db with users := updateFirst (fun u => u.id == uid) f db.users }

/-- The uniqueness the database enforces: session ids and user ids are
primary keys and profile user ids are unique. -/
def DB.wellFormed (db : DB) : Prop :=
  (db.sessions.map (fun s => s.id)).Nodup ∧ (db.users.map (fun u => u.id)).Nodup ∧
  (db.profiles.map (fun p => p.user_id)).Nodup

/-- `c` counts as whitespace for Python `str.strip()` (ASCII range). -/
def pyIsSpace (c : Char) : Bool :=
  c == ' ' || c == '\t' || c == '\n' || c == '\r' || c == '\x0B' || c == '\x0C'

/-- Python `s.strip()`: drop leading and trailing whitespace. -/
def pyStrip (s : String) : String :=
  String.mk (((s.data.dropWhile pyIsSpace).reverse.dropWhile pyIsSpace).reverse)

/-- Python `s.lower()` on the ASCII range the tests exercise. -/
def pyLower (s : String) : String := String.mk (s.data.map Char.toLower)

/-- Modelled from the spec: the external credential-hashing collaborator
(`app/security.py` `hash_password`, passlib argon2) returning an opaque
hash; its algorithm is out of scope, only that it yields some string. -/
def hash_password (password : String) : String := "argon2$" ++ password

/-- Outcome of `register_submit`. -/
inductive SubmitResult
  | emailRequired
  | emailAlreadyRegistered
  | redirected (regId : String)
deriving Repr, DecidableEq

/-- `register_submit`: normalize the email, reject empty or taken emails,
else create User + UserProfile + RegistrationSession (with `step = 2`) in
one commit.  `freshUserId` is the id the database assigns at flush and
`freshRegId` the `uuid4` session id.  The `IntegrityError` branch guards a
concurrent duplicate insert and is unreachable in this sequential model
because the uniqueness check precedes the insert. -/
def register_submit (db : DB)
    (first_name last_name address country email password : String)
    (freshUserId : Int) (freshRegId : String) : SubmitResult × DB :=
  let email_norm := pyLower (pyStrip email)
  if email_norm = "" then (.emailRequired, db)
  else if db.users.any (fun u => u.email == email_norm) then (.emailAlreadyRegistered, db)
  else
    let user : UserRec := { id := freshUserId, email := email_norm,
                            password_hash := hash_password password }
    let profile : UserProfileRec := { user_id := freshUserId,
                                      first_name := pyStrip first_name,
                                      last_name := pyStrip last_name,
                                      address := pyStrip address,
                                      country := pyStrip country }
    let reg : RegistrationSession := { id := freshRegId, user_id := freshUserId, step := 2 }
    (.redirected freshRegId,
     { users := db.users ++ [user], profiles := db.profiles ++ [profile],
       sessions := db.sessions ++ [reg] })

/-- `_cancel_and_delete`: delete the profile (if any), the session, and
the user in one commit; if the user row is gone, delete only the session. -/
def cancel_and_delete (db : DB) (reg : RegistrationSession) : DB :=
  match db.findUser reg.user_id with
  | none => { db with sessions := eraseFirst (fun s => s.id == reg.id) db.sessions }
  | some user =>
    { users := eraseFirst (fun u => u.id == user.id) db.users,
      profiles := match db.findProfile user.id with
        | some profile => eraseFirst (fun p => p.user_id == profile.user_id) db.profiles
        | none => db.profiles,
      sessions := eraseFirst (fun s => s.id == reg.id) db.sessions }

/-- Outcome of `register_cancel`. -/
inductive CancelResult
  | alreadyCompleted
  | canceled
deriving Repr, DecidableEq

/-- `register_cancel`: refuse on a completed session; otherwise delete the
session's rows (a missing session still renders the canceled page). -/
def register_cancel (db : DB) (reg : String) : CancelResult × DB :=
  match db.findSession reg with
  | none => (.canceled, db)
  | some regObj =>
    if regObj.status == "completed" then (.alreadyCompleted, db)
    else (.canceled, cancel_and_delete db regObj)

/-- Outcome of a step-advancing POST handler. -/
inductive StepResult
  | invalidSession
  | redirected
deriving Repr, DecidableEq

/-- `register_email_next`: stamp `email_verified_at` once on the user,
raise `step` to `max(step, 3)`. -/
def register_email_next (db : DB) (reg : String) (now : Int) : StepResult × DB :=
  match db.findSession reg with
  | none => (.invalidSession, db)
  | some regObj =>
    let db :=
      match db.findUser regObj.user_id with
      | some user =>
        if user.email_verified_at = none then
          db.updateUser user.id (fun u => { u with email_verified_at := some now })
        else db
      | none => db
    (.redirected, db.updateSession regObj.id (fun s => { s with step := max s.step 3 }))

/-- `register_2fa_next`: raise `step` to `max(step, 4)`. -/
def register_2fa_next (db : DB) (reg : String) : StepResult × DB :=
  match db.findSession reg with
  | none => (.invalidSession, db)
  | some regObj =>
    (.redirected, db.updateSession regObj.id (fun s => { s with step := max s.step 4 }))

/-- Outcome of `register_payment_start`. -/
inductive PaymentStartResult
  | invalidSession
  | stripeUnavailable
  | redirectedToCheckout
deriving Repr, DecidableEq

/-- `register_payment_start`: with Stripe configured, create a checkout
session (`newSid` is the id Stripe returns) and store it on the session.
The missing-URL branch still commits the stored id first, so the
post-state does not depend on it. -/
def register_payment_start (db : DB) (reg : String) (stripe_ready : Bool)
    (newSid : String) : PaymentStartResult × DB :=
  match db.findSession reg with
  | none => (.invalidSession, db)
  | some regObj =>
    if !stripe_ready then (.stripeUnavailable, db)
    else (.redirectedToCheckout,
      db.updateSession regObj.id
        (fun s => { s with stripe_checkout_session_id := some newSid }))

/-- Outcome of `stripe.checkout.Session.retrieve`: an exception, or a
session whose `payment_status` field may be absent. -/
inductive RetrieveResult
  | err
  | ok (payment_status : Option String)

/-- Outcome of `register_payment_success`. -/
inductive PaymentSuccessResult
  | invalidSession
  | stripeUnavailable
  | missingSessionId
  | couldNotVerify
  | notCompleted
  | redirectedToReview
deriving Repr, DecidableEq

/-- `register_payment_success`: re-fetch the checkout session from Stripe
(`retrieve`); only when its `payment_status` is `"paid"` set `paid_at`,
raise `step` to `max(step, 5)` and store the session id. -/
def register_payment_success (db : DB) (reg : String) (session_id : Option String)
    (stripe_ready : Bool) (retrieve : String → RetrieveResult) (now : Int) :
    PaymentSuccessResult × DB :=
  match db.findSession reg with
  | none => (.invalidSession, db)
  | some regObj =>
    if !stripe_ready then (.stripeUnavailable, db)
    else
      match session_id with
      | none => (.missingSessionId, db)
      | some sid =>
        match retrieve sid with
        | .err => (.couldNotVerify, db)
        | .ok ps =>
          if ps ≠ some "paid" then (.notCompleted, db)
          else (.redirectedToReview,
            db.updateSession regObj.id
              (fun s => { s with paid_at := some now, step := max s.step 5,
                                 stripe_checkout_session_id := some sid }))

/-- Outcome of `register_complete`. -/
inductive CompleteResult
  | invalidSession
  | paymentRequired
  | completed
deriving Repr, DecidableEq

/-- `register_complete`: reject when `paid_at` is unset, else set
`status = "completed"` and `step = max(step, 5)`. -/
def register_complete (db : DB) (reg : String) : CompleteResult × DB :=
  match db.findSession reg with
  | none => (.invalidSession, db)
  | some regObj =>
    if regObj.paid_at = none then (.paymentRequired, db)
    else (.completed,
      db.updateSession regObj.id
        (fun s => { s with status := "completed", step := max s.step 5 }))

/-- One inbound workflow request, with the external inputs each handler
consumes. -/
inductive WorkflowOp
  | submit (first_name last_name address country email password : String)
           (freshUserId : Int) (freshRegId : String)
  | cancel (reg : String)
  | emailNext (reg : String) (now : Int)
  | twofaNext (reg : String)
  | paymentStart (reg : String) (stripe_ready : Bool) (newSid : String)
  | paymentSuccess (reg : String) (session_id : Option String) (stripe_ready : Bool)
                   (retrieve : String → RetrieveResult) (now : Int)
  | complete (reg : String)

/-- The database after handling one workflow request. -/
def applyOp (db : DB) : WorkflowOp → DB
  | .submit f l a c e p uid rid => (register_submit db f l a c e p uid rid).2
  | .cancel reg => (register_cancel db reg).2
  | .emailNext reg now => (register_email_next db reg now).2
  | .twofaNext reg => (register_2fa_next db reg).2
  | .paymentStart reg ready sid => (register_payment_start db reg ready sid).2
  | .paymentSuccess reg sid ready retrieve now =>
      (register_payment_success db reg sid ready retrieve now).2
  | .complete reg => (register_complete db reg).2

/-- Every completed session has `paid_at` set. -/
def completedImpliesPaid (db : DB) : Prop :=
  ∀ s ∈ db.sessions, s.status = "completed" → s.paid_at ≠ none

/-- Every session's step lies in 2..5. -/
def stepInRange (db : DB) : Prop :=
  ∀ s ∈ db.sessions, 2 ≤ s.step ∧ s.step ≤ 5

/-- Store with one pending login and one unused code, both bound to the
challenge of verifier `"v1"`, used to instantiate the handshake theorems. -/
def egAuthStore : DesktopAuthStore :=
  { pending := [("s1", { state := "s1", redirect_uri := "app://cb",
                         code_challenge := pkce_challenge_from_verifier "v1",
                         created_at := 0 })],
    codes := [("c1", { code := "c1", user_id := 7, state := "s1",
                       code_challenge := pkce_challenge_from_verifier "v1",
                       created_at := 0 })] }

/-- Example user row. -/
def egUser : UserRec := { id := 1, email := "a@x.com", password_hash := "argon2$pw" }

/-- Example profile row. -/
def egProfile : UserProfileRec :=
  { user_id := 1, first_name := "A", last_name := "B",
    address := "12 Demo St", country := "US" }

/-- Example completed, paid session row. -/
def egCompletedSession : RegistrationSession :=
  { id := "r1", user_id := 1, step := 5, status := "completed",
    stripe_checkout_session_id := some "cs_1", paid_at := some 20 }

/-- Example in-progress, unpaid session row at step 3. -/
def egProgressSession : RegistrationSession := { id := "r1", user_id := 1, step := 3 }

/-- Database with one completed, paid registration, used to instantiate
the workflow theorems. -/
def egCompletedDB : DB :=
  { users := [egUser], profiles := [egProfile], sessions := [egCompletedSession] }

/-- Database with one in-progress, unpaid registration at step 3. -/
def egProgressDB : DB :=
  { users := [egUser], profiles := [egProfile], sessions := [egProgressSession] }

/-! ## Lemmas about row deletion and in-place row update. -/

/-- Deleting a row only removes rows. -/
theorem mem_eraseFirst {p : α → Bool} {l : List α} {a : α} (h : a ∈ eraseFirst p l) :
    a ∈ l := by
  induction l with
  | nil => simp [eraseFirst] at h
  | cons x xs ih =>
    simp only [eraseFirst] at h
    by_cases hp : p x
    · rw [if_pos hp] at h
      exact List.mem_cons_of_mem x h
    · rw [if_neg hp] at h
      rcases List.mem_cons.1 h with h | h
      · exact h ▸ List.mem_cons_self x xs
      · exact List.mem_cons_of_mem x (ih h)

/-- Deleting a row that a search predicate rejects leaves the search
result unchanged. -/
theorem find?_eraseFirst_disjoint (p q : α → Bool) (l : List α)
    (hdisj : ∀ x, q x = true → p x = false) :
    (eraseFirst q l).find? p = l.find? p := by
  induction l with
  | nil => rfl
  | cons x xs ih =>
    simp only [eraseFirst]
    by_cases hq : q x
    · rw [if_pos hq, List.find?_cons_of_neg _ (by simp [hdisj x hq])]
    · rw [if_neg hq]
      cases hp : p x
      · rw [List.find?_cons_of_neg _ (by simp [hp]), List.find?_cons_of_neg _ (by simp [hp])]
        exact ih
      · rw [List.find?_cons_of_pos _ hp, List.find?_cons_of_pos _ hp]

/-- With keys unique, deleting the row found under a key leaves nothing
to find under that key. -/
theorem find?_eraseFirst_nodup {β : Type} [DecidableEq β] (key : α → β) (k : β)
    (l : List α) (hnd : (l.map key).Nodup) :
    (eraseFirst (fun a => key a == k) l).find? (fun a => key a == k) = none := by
  induction l with
  | nil => rfl
  | cons x xs ih =>
    simp only [List.map_cons, List.nodup_cons] at hnd
    simp only [eraseFirst]
    by_cases hx : key x == k
    · rw [if_pos hx]
      rw [List.find?_eq_none]
      intro a ha hpa
      have hxk : key x = k := by simpa using hx
      have hak : key a = k := by simpa using hpa
      exact hnd.1 (by rw [hxk, ← hak]; exact List.mem_map_of_mem key ha)
    · rw [if_neg hx, List.find?_cons_of_neg _ (by simpa using hx)]
      exact ih hnd.2

/-- Updating the row found under a predicate, by a function that keeps
the predicate true, makes the updated row the new search result. -/
theorem find?_updateFirst (p : α → Bool) (f : α → α) (l : List α) (a : α)
    (hfind : l.find? p = some a) (hfa : p (f a) = true) :
    (updateFirst p f l).find? p = some (f a) := by
  induction l with
  | nil => simp at hfind
  | cons x xs ih =>
    simp only [updateFirst]
    by_cases hp : p x
    · rw [List.find?_cons_of_pos _ hp] at hfind
      cases hfind
      rw [if_pos hp, List.find?_cons_of_pos _ hfa]
    · rw [List.find?_cons_of_neg _ hp] at hfind
      rw [if_neg hp, List.find?_cons_of_neg _ hp]
      exact ih hfind

/-- Updating a row that a search predicate rejects, by a function that
keeps it rejected, leaves the search result unchanged. -/
theorem find?_updateFirst_disjoint (p q : α → Bool) (f : α → α) (l : List α)
    (hq : ∀ x, q x = true → p x = false) (hqf : ∀ x, q x = true → p (f x) = false) :
    (updateFirst q f l).find? p = l.find? p := by
  induction l with
  | nil => rfl
  | cons x xs ih =>
    simp only [updateFirst]
    by_cases hx : q x
    · rw [if_pos hx, List.find?_cons_of_neg _ (by simp [hqf x hx]),
          List.find?_cons_of_neg _ (by simp [hq x hx])]
    · rw [if_neg hx]
      cases hp : p x
      · rw [List.find?_cons_of_neg _ (by simp [hp]), List.find?_cons_of_neg _ (by simp [hp])]
        exact ih
      · rw [List.find?_cons_of_pos _ hp, List.find?_cons_of_pos _ hp]

/-- A row of an updated table is an old row or the update of the row the
predicate found. -/
theorem mem_updateFirst {q : α → Bool} {f : α → α} {l : List α} {a : α}
    (h : a ∈ updateFirst q f l) :
    a ∈ l ∨ ∃ b, l.find? q = some b ∧ a = f b := by
  induction l with
  | nil => simp [updateFirst] at h
  | cons x xs ih =>
    simp only [updateFirst] at h
    by_cases hq : q x
    · rw [if_pos hq] at h
      rcases List.mem_cons.1 h with h | h
      · exact Or.inr ⟨x, List.find?_cons_of_pos _ hq, h⟩
      · exact Or.inl (List.mem_cons_of_mem x h)
    · rw [if_neg hq] at h
      rcases List.mem_cons.1 h with h | h
      · exact Or.inl (h ▸ List.mem_cons_self x xs)
      · rcases ih h with h | ⟨b, hb, hab⟩
        · exact Or.inl (List.mem_cons_of_mem x h)
        · exact Or.inr ⟨b, by rw [List.find?_cons_of_neg _ hq]; exact hb, hab⟩

/-- Appending rows does not change an already-successful search. -/
theorem find?_append_some (p : α → Bool) (l₁ l₂ : List α) (a : α)
    (h : l₁.find? p = some a) : (l₁ ++ l₂).find? p = some a := by
  induction l₁ with
  | nil => simp at h
  | cons x xs ih =>
    by_cases hp : p x
    · rw [List.find?_cons_of_pos _ hp] at h
      rw [List.cons_append, List.find?_cons_of_pos _ hp]
      exact h
    · rw [List.find?_cons_of_neg _ hp] at h
      rw [List.cons_append, List.find?_cons_of_neg _ hp]
      exact ih h

/-! ## Lemmas about the registration tables. -/

/-- The session a registration id resolves to carries that id. -/
theorem findSession_id {db : DB} {reg : String} {s : RegistrationSession}
    (h : db.findSession reg = some s) : s.id = reg := by
  simpa using List.find?_some h

/-- The user a user id resolves to carries that id. -/
theorem findUser_id {db : DB} {uid : Int} {u : UserRec}
    (h : db.findUser uid = some u) : u.id = uid := by
  simpa using List.find?_some h

/-- The profile a user id resolves to carries that user id. -/
theorem findProfile_user_id {db : DB} {uid : Int} {p : UserProfileRec}
    (h : db.findProfile uid = some p) : p.user_id = uid := by
  simpa using List.find?_some h

/-- Updating the session found under one id either leaves another id's
lookup unchanged, or — when the ids agree — replaces it by the updated
session. -/
theorem findSession_updateSession_cases (db : DB) (reg : String)
    (s r2 : RegistrationSession) (f : RegistrationSession → RegistrationSession)
    (hfind : db.findSession reg = some s) (hf2 : db.findSession r2.id = some r2)
    (hfall : ∀ x, (f x).id = x.id) :
    (db.updateSession r2.id f).findSession reg = some s ∨
    (r2 = s ∧ (db.updateSession r2.id f).findSession reg = some (f s)) := by
  have hsid : s.id = reg := findSession_id hfind
  by_cases h : r2.id = reg
  · right
    rw [h] at hf2
    rw [hfind] at hf2
    cases hf2
    refine ⟨rfl, ?_⟩
    simp only [DB.updateSession, DB.findSession, h]
    exact find?_updateFirst _ f db.sessions s hfind (by simp [hfall, hsid])
  · left
    simp only [DB.updateSession, DB.findSession]
    rw [find?_updateFirst_disjoint _ _ f db.sessions
      (fun x hx => by simp at hx ⊢; rw [hx]; exact h)
      (fun x hx => by simp at hx ⊢; rw [hfall, hx]; exact h)]
    exact hfind

/-- Cancelling a session with a different id leaves a session lookup
unchanged. -/
theorem findSession_cancel_and_delete (db : DB) (reg : String)
    (s r2 : RegistrationSession)
    (hfind : db.findSession reg = some s) (hne : r2.id ≠ reg) :
    (cancel_and_delete db r2).findSession reg = some s := by
  have hdisj : ∀ x : RegistrationSession, (x.id == r2.id) = true → (x.id == reg) = false :=
    fun x hx => by simp at hx ⊢; rw [hx]; exact hne
  cases hu : db.findUser r2.user_id with
  | none =>
    simp only [cancel_and_delete, hu, DB.findSession]
    rw [find?_eraseFirst_disjoint _ _ _ hdisj]
    exact hfind
  | some user =>
    simp only [cancel_and_delete, hu, DB.findSession]
    rw [find?_eraseFirst_disjoint _ _ _ hdisj]
    exact hfind

/-- Lookup of an untouched session id is unchanged by a user-table
update. -/
theorem findSession_updateUser (db : DB) (uid : Int) (g : UserRec → UserRec)
    (reg : String) : (db.updateUser uid g).findSession reg = db.findSession reg := rfl

/-- Membership after a step-raising update: an old session, or an old
session with its step raised to `max step k`. -/
theorem mem_updateFirst_step (db : DB) (q : RegistrationSession → Bool) (k : Int)
    (s' : RegistrationSession)
    (h : s' ∈ updateFirst q (fun t => { t with step := max t.step k }) db.sessions) :
    s' ∈ db.sessions ∨
    ∃ b ∈ db.sessions, s'.status = b.status ∧ s'.paid_at = b.paid_at ∧
      s'.step = max b.step k := by
  rcases mem_updateFirst h with h | ⟨b, hb, rfl⟩
  · exact Or.inl h
  · exact Or.inr ⟨b, List.mem_of_find?_eq_some hb, rfl, rfl, rfl⟩

/-- Every session in the table after one workflow request is an old
session, a step-raise of an old session, a payment-stamped copy of an old
session, a completion of a paid old session, or the fresh step-2 session
`register_submit` creates. -/
theorem sessions_after_applyOp (db : DB) (op : WorkflowOp) (s' : RegistrationSession)
    (hmem : s' ∈ (applyOp db op).sessions) :
    s' ∈ db.sessions ∨
    (∃ b ∈ db.sessions, s'.status = b.status ∧ s'.paid_at = b.paid_at ∧
      (s'.step = b.step ∨ s'.step = max b.step 3 ∨ s'.step = max b.step 4)) ∨
    (∃ b ∈ db.sessions, s'.status = b.status ∧ (∃ t, s'.paid_at = some t) ∧
      s'.step = max b.step 5) ∨
    (∃ b ∈ db.sessions, s'.status = "completed" ∧ s'.paid_at = b.paid_at ∧
      b.paid_at ≠ none ∧ s'.step = max b.step 5) ∨
    (s'.step = 2 ∧ s'.status = "in_progress" ∧ s'.paid_at = none) := by
  cases op with
  | submit f l a c e pw uid rid =>
    simp only [applyOp, register_submit] at hmem
    split at hmem
    · exact Or.inl hmem
    · split at hmem
      · exact Or.inl hmem
      · rcases List.mem_append.1 hmem with h | h
        · exact Or.inl h
        · simp only [List.mem_singleton] at h
          subst h
          exact Or.inr (Or.inr (Or.inr (Or.inr ⟨rfl, rfl, rfl⟩)))
  | cancel reg₂ =>
    simp only [applyOp, register_cancel] at hmem
    cases hf2 : db.findSession reg₂ with
    | none => rw [hf2] at hmem; exact Or.inl hmem
    | some r2 =>
      rw [hf2] at hmem
      dsimp only at hmem
      by_cases hc : (r2.status == "completed") = true
      · rw [if_pos hc] at hmem; exact Or.inl hmem
      · rw [if_neg hc] at hmem
        cases hu : db.findUser r2.user_id with
        | none =>
          simp only [cancel_and_delete, hu] at hmem
          exact Or.inl (mem_eraseFirst hmem)
        | some user =>
          simp only [cancel_and_delete, hu] at hmem
          exact Or.inl (mem_eraseFirst hmem)
  | emailNext reg₂ now =>
    simp only [applyOp, register_email_next] at hmem
    cases hf2 : db.findSession reg₂ with
    | none => rw [hf2] at hmem; exact Or.inl hmem
    | some r2 =>
      rw [hf2] at hmem
      dsimp only at hmem
      have raise : s' ∈ updateFirst (fun t => t.id == r2.id)
          (fun t => { t with step := max t.step 3 }) db.sessions → _ :=
        fun h => mem_updateFirst_step db _ 3 s' h
      cases hu : db.findUser r2.user_id with
      | none =>
        rw [hu] at hmem
        dsimp only at hmem
        rcases raise hmem with h | ⟨b, hb, h1, h2, h3⟩
        · exact Or.inl h
        · exact Or.inr (Or.inl ⟨b, hb, h1, h2, Or.inr (Or.inl h3)⟩)
      | some user =>
        rw [hu] at hmem
        dsimp only at hmem
        by_cases hv : user.email_verified_at = none
        · rw [if_pos hv] at hmem
          rcases raise hmem with h | ⟨b, hb, h1, h2, h3⟩
          · exact Or.inl h
          · exact Or.inr (Or.inl ⟨b, hb, h1, h2, Or.inr (Or.inl h3)⟩)
        · rw [if_neg hv] at hmem
          rcases raise hmem with h | ⟨b, hb, h1, h2, h3⟩
          · exact Or.inl h
          · exact Or.inr (Or.inl ⟨b, hb, h1, h2, Or.inr (Or.inl h3)⟩)
  | twofaNext reg₂ =>
    simp only [applyOp, register_2fa_next] at hmem
    cases hf2 : db.findSession reg₂ with
    | none => rw [hf2] at hmem; exact Or.inl hmem
    | some r2 =>
      rw [hf2] at hmem
      dsimp only at hmem
      rcases mem_updateFirst_step db _ 4 s' hmem with h | ⟨b, hb, h1, h2, h3⟩
      · exact Or.inl h
      · exact Or.inr (Or.inl ⟨b, hb, h1, h2, Or.inr (Or.inr h3)⟩)
  | paymentStart reg₂ ready sid =>
    simp only [applyOp, register_payment_start] at hmem
    cases hf2 : db.findSession reg₂ with
    | none => rw [hf2] at hmem; exact Or.inl hmem
    | some r2 =>
      rw [hf2] at hmem
      dsimp only at hmem
      cases ready with
      | false => simp only [Bool.not_false, if_true] at hmem; exact Or.inl hmem
      | true =>
        simp only [Bool.not_true, Bool.false_eq_true, if_false] at hmem
        rcases mem_updateFirst hmem with h | ⟨b, hb, rfl⟩
        · exact Or.inl h
        · exact Or.inr (Or.inl ⟨b, List.mem_of_find?_eq_some hb, rfl, rfl, Or.inl rfl⟩)
  | paymentSuccess reg₂ sid? ready retrieve now =>
    simp only [applyOp, register_payment_success] at hmem
    cases hf2 : db.findSession reg₂ with
    | none => rw [hf2] at hmem; exact Or.inl hmem
    | some r2 =>
      rw [hf2] at hmem
      dsimp only at hmem
      cases ready with
      | false => simp only [Bool.not_false, if_true] at hmem; exact Or.inl hmem
      | true =>
        simp only [Bool.not_true, Bool.false_eq_true, if_false] at hmem
        cases sid? with
          | none => exact Or.inl hmem
          | some sid =>
            dsimp only at hmem
            cases hret : retrieve sid with
            | err => rw [hret] at hmem; exact Or.inl hmem
            | ok ps =>
              rw [hret] at hmem
              dsimp only at hmem
              by_cases hps : ps ≠ some "paid"
              · rw [if_pos hps] at hmem; exact Or.inl hmem
              · rw [if_neg hps] at hmem
                rcases mem_updateFirst hmem with h | ⟨b, hb, rfl⟩
                · exact Or.inl h
                · exact Or.inr (Or.inr (Or.inl
                    ⟨b, List.mem_of_find?_eq_some hb, rfl, ⟨now, rfl⟩, rfl⟩))
  | complete reg₂ =>
    simp only [applyOp, register_complete] at hmem
    cases hf2 : db.findSession reg₂ with
    | none => rw [hf2] at hmem; exact Or.inl hmem
    | some r2 =>
      rw [hf2] at hmem
      dsimp only at hmem
      by_cases hp : r2.paid_at = none
      · rw [if_pos hp] at hmem; exact Or.inl hmem
      · rw [if_neg hp] at hmem
        rcases mem_updateFirst hmem with h | ⟨b, hb, rfl⟩
        · exact Or.inl h
        · have hbr : b = r2 := by
            have hid : r2.id = reg₂ := findSession_id hf2
            rw [hid] at hb
            simp only [DB.findSession] at hf2
            rw [hf2] at hb
            exact (Option.some.inj hb).symm
          subst hbr
          exact Or.inr (Or.inr (Or.inr (Or.inl
            ⟨b, List.mem_of_find?_eq_some hb, rfl, rfl, hp, rfl⟩)))

/-- No workflow request can produce a completed session without a
payment stamp. -/
theorem completedImpliesPaid_applyOp (db : DB) (op : WorkflowOp)
    (h : completedImpliesPaid db) : completedImpliesPaid (applyOp db op) := by
  intro s' hmem hst
  rcases sessions_after_applyOp db op s' hmem with
    h1 | ⟨b, hb, hst', hpa, _⟩ | ⟨b, hb, hst', ⟨t, hpa⟩, _⟩ | ⟨b, hb, hst', hpa, hbp, _⟩
      | ⟨_, hst', _⟩
  · exact h s' h1 hst
  · rw [hpa]
    exact h b hb (by rw [← hst']; exact hst)
  · rw [hpa]; simp
  · rw [hpa]; exact hbp
  · rw [hst] at hst'; simp at hst'

/-- No workflow request can move a session's step outside 2..5. -/
theorem stepInRange_applyOp (db : DB) (op : WorkflowOp)
    (h : stepInRange db) : stepInRange (applyOp db op) := by
  intro s' hmem
  rcases sessions_after_applyOp db op s' hmem with
    h1 | ⟨b, hb, _, _, hstep⟩ | ⟨b, hb, _, _, hstep⟩ | ⟨b, hb, _, _, _, hstep⟩
      | ⟨hstep, _, _⟩
  · exact h s' h1
  · obtain ⟨hb1, hb2⟩ := h b hb
    rcases hstep with h3 | h3 | h3 <;> rw [h3]
    · exact ⟨hb1, hb2⟩
    · exact ⟨le_trans hb1 (le_max_left _ _), max_le hb2 (by norm_num)⟩
    · exact ⟨le_trans hb1 (le_max_left _ _), max_le hb2 (by norm_num)⟩
  · obtain ⟨hb1, hb2⟩ := h b hb
    rw [hstep]
    exact ⟨le_trans hb1 (le_max_left _ _), max_le hb2 (by norm_num)⟩
  · obtain ⟨hb1, hb2⟩ := h b hb
    rw [hstep]
    exact ⟨le_trans hb1 (le_max_left _ _), max_le hb2 (by norm_num)⟩
  · rw [hstep]
    exact ⟨le_refl _, by norm_num⟩

/-! ## Lemmas about the handshake store. -/

/-- After the in-place `used := true` mutation, no cleanup filter that
rejects used entries can leave an entry to find under that code. -/
theorem lookupKey_filter_markUsed (cs : List (String × AuthCode)) (code : String)
    (p : String × AuthCode → Bool) (hp : ∀ kv, kv.2.used = true → p kv = false) :
    lookupKey ((markUsed cs code).filter p) code = none := by
  induction cs with
  | nil => rfl
  | cons kv rest ih =>
    simp only [markUsed, List.map_cons, List.filter_cons] at *
    by_cases h : kv.1 == code
    · rw [if_pos h, hp _ rfl]
      exact ih
    · rw [if_neg h]
      cases hpkv : p kv
      · simpa using ih
      · simpa [lookupKey, List.find?_cons, h] using ih

/-- Cleaning a just-cleaned store at the same instant changes nothing. -/
theorem cleanup_cleanup (s : DesktopAuthStore) (now : Int) :
    (s.cleanup now).cleanup now = s.cleanup now := by
  simp [DesktopAuthStore.cleanup, List.filter_filter]

/-- A store whose codes dict has the entry for `code` marked used rejects
any exchange of `code` with `invalid_code`, at any time and with any
verifier. -/
theorem exchange_code_after_markUsed (t : DesktopAuthStore) (l : List (String × AuthCode))
    (code : String) (h : t.codes = markUsed l code) (now' : Int) (v' : String) :
    (t.exchange_code now' code v').1 = .error .invalid_code := by
  have hnone : lookupKey ((t.cleanup now').codes) code = none := by
    rw [show (t.cleanup now').codes
          = t.codes.filter
              (fun kv => decide (now' - kv.2.created_at < t.code_ttl_s) && !kv.2.used)
        from rfl, h]
    exact lookupKey_filter_markUsed l code _ (fun kv hkv => by simp [hkv])
  simp [DesktopAuthStore.exchange_code, hnone]

/-- Inserting a key and filtering with a predicate that accepts the new
entry leaves the new value as the first hit for that key. -/
theorem lookupKey_filter_setKey (l : List (String × α)) (k : String) (v : α)
    (p : String × α → Bool) (hp : p (k, v) = true) :
    lookupKey ((setKey l k v).filter p) k = some v := by
  induction l with
  | nil => simp [setKey, List.filter_cons, hp, lookupKey]
  | cons kv rest ih =>
    by_cases h : kv.1 == k
    · simp [setKey, h, List.filter_cons, hp, lookupKey]
    · cases hpkv : p kv
      · simpa [setKey, h, List.filter_cons, hpkv] using ih
      · simpa [setKey, h, List.filter_cons, hpkv, lookupKey, List.find?_cons] using ih

/-- C1: once `exchange_code` has succeeded with a code, any later call to
`exchange_code` with the same code — at any time and with any verifier,
including the correct one — fails with `invalid_code`; a code is
exchanged successfully at most once. -/
theorem exchange_code_at_most_once (s : DesktopAuthStore) (now : Int)
    (code verifier : String) (uid : Int) (s' : DesktopAuthStore)
    (h : s.exchange_code now code verifier = (.ok uid, s'))
    (now' : Int) (verifier' : String) :
    (s'.exchange_code now' code verifier').1 = .error .invalid_code := by
  simp only [DesktopAuthStore.exchange_code] at h
  split at h
  · simp at h
  · split at h
    · simp at h
    · split at h
      · simp at h
      · simp only [Prod.mk.injEq] at h
        exact exchange_code_after_markUsed s' ((s.cleanup now).codes) code
          (by rw [← h.2]) now' verifier'

/-- Witness for C1 at a concrete store: exchanging code `"c1"` with the
correct verifier `"v1"` succeeds with user 7, and repeating the exchange
one second later with the same correct verifier is rejected. -/
theorem exchange_code_at_most_once_witness :
    ∃ s', egAuthStore.exchange_code 0 "c1" "v1" = (.ok 7, s') ∧
      (s'.exchange_code 1 "c1" "v1").1 = .error .invalid_code :=
  ⟨(egAuthStore.exchange_code 0 "c1" "v1").2, rfl,
    exchange_code_at_most_once egAuthStore 0 "c1" "v1" 7 _ rfl 1 "v1"⟩

/-- C3: for a live, unused code and a verifier whose challenge differs
from the stored one, `exchange_code` fails with `pkce_failed` (distinct
from `invalid_code`) and leaves the store as mere cleanup — in the
returned store the code still resolves to the same unused entry — so an
exchange with the correct verifier still succeeds with the bound user id,
and only once: repeating it afterwards fails with `invalid_code`. -/
theorem exchange_code_pkce_mismatch (s : DesktopAuthStore) (now : Int)
    (code v w : String) (ac : AuthCode)
    (hlook : lookupKey ((s.cleanup now).codes) code = some ac)
    (hused : ac.used = false)
    (hneq : pkce_challenge_from_verifier v ≠ ac.code_challenge)
    (hok : pkce_challenge_from_verifier w = ac.code_challenge) :
    s.exchange_code now code v = (.error .pkce_failed, s.cleanup now) ∧
    ((s.cleanup now).exchange_code now code w).1 = .ok ac.user_id ∧
    ∀ now' v',
      ((((s.cleanup now).exchange_code now code w).2).exchange_code now' code v').1
        = .error .invalid_code := by
  have hsucc : (s.cleanup now).exchange_code now code w
      = (.ok ac.user_id, { s.cleanup now with codes := markUsed (s.cleanup now).codes code }) := by
    simp [DesktopAuthStore.exchange_code, cleanup_cleanup, hlook, hused, hok]
  refine ⟨?_, ?_, ?_⟩
  · simp [DesktopAuthStore.exchange_code, hlook, hused, hneq]
  · rw [hsucc]
  · intro now' v'
    rw [hsucc]
    exact exchange_code_after_markUsed _ ((s.cleanup now).codes) code rfl now' v'

/-- Witness for C3 at a concrete store: verifier `"v2"` does not match the
challenge derived from `"v1"`, the exchange fails with `pkce_failed`, and
the correct verifier `"v1"` still succeeds with user 7 exactly once. -/
theorem exchange_code_pkce_mismatch_witness :
    (pkce_challenge_from_verifier "v2" ≠ pkce_challenge_from_verifier "v1") ∧
    egAuthStore.exchange_code 0 "c1" "v2" = (.error .pkce_failed, egAuthStore.cleanup 0) ∧
    ((egAuthStore.cleanup 0).exchange_code 0 "c1" "v1").1 = .ok 7 ∧
    ((((egAuthStore.cleanup 0).exchange_code 0 "c1" "v1").2).exchange_code 1 "c1" "v1").1
      = .error .invalid_code := by
  have h := exchange_code_pkce_mismatch egAuthStore 0 "c1" "v2" "v1"
    { code := "c1", user_id := 7, state := "s1",
      code_challenge := pkce_challenge_from_verifier "v1", created_at := 0 }
    rfl rfl (by decide) rfl
  exact ⟨by decide, h.1, h.2.1, h.2.2 1 "v1"⟩

/-- C4: with a live pending login whose challenge was derived from
verifier `V`, issuing a code for a state and user and immediately
exchanging that code with `V` returns exactly that user id (the store's
code TTL being positive, as the constructed store's 120 s is). -/
theorem issue_code_then_exchange (s : DesktopAuthStore) (now : Int)
    (state fresh V : String) (uid : Int) (p : PendingLogin)
    (hp : lookupKey ((s.cleanup now).pending) state = some p)
    (hch : p.code_challenge = pkce_challenge_from_verifier V)
    (httl : 0 < s.code_ttl_s) :
    ∃ ac s₂, s.issue_code now fresh state uid = (.ok ac, s₂) ∧ ac.code = fresh ∧
      (s₂.exchange_code now ac.code V).1 = .ok uid := by
  refine ⟨{ code := fresh, user_id := uid, state := state,
            code_challenge := p.code_challenge, created_at := now },
          { s.cleanup now with
            codes := setKey (s.cleanup now).codes fresh
              { code := fresh, user_id := uid, state := state,
                code_challenge := p.code_challenge, created_at := now } },
          by simp [DesktopAuthStore.issue_code, hp], rfl, ?_⟩
  have hlook : lookupKey
      ((({ s.cleanup now with
            codes := setKey (s.cleanup now).codes fresh
              { code := fresh, user_id := uid, state := state,
                code_challenge := p.code_challenge, created_at := now } }).cleanup now).codes)
      fresh = some
        { code := fresh, user_id := uid, state := state,
          code_challenge := p.code_challenge, created_at := now } := by
    exact lookupKey_filter_setKey _ fresh _ _ (by simp [DesktopAuthStore.cleanup, httl])
  rw [hch] at hlook
  simp [DesktopAuthStore.exchange_code, hch, hlook]

/-- Witness for C4: issuing a fresh code `"c9"` for state `"s1"` and user
42 against the concrete store and exchanging it at once with verifier
`"v1"` yields 42. -/
theorem issue_code_then_exchange_witness :
    ∃ ac s₂, egAuthStore.issue_code 0 "c9" "s1" 42 = (.ok ac, s₂) ∧ ac.code = "c9" ∧
      (s₂.exchange_code 0 ac.code "v1").1 = .ok 42 :=
  issue_code_then_exchange egAuthStore 0 "s1" "c9" "v1" 42
    { state := "s1", redirect_uri := "app://cb",
      code_challenge := pkce_challenge_from_verifier "v1", created_at := 0 }
    rfl rfl (by decide)

/-- Updating the session a lookup resolves to, by an id-preserving
function, makes the updated session the new lookup result. -/
theorem findSession_updateSession_self (db : DB) (reg : String)
    (s : RegistrationSession) (f : RegistrationSession → RegistrationSession)
    (hfind : db.findSession reg = some s) (hfid : (f s).id = s.id) :
    (db.updateSession s.id f).findSession reg = some (f s) := by
  have hsid : s.id = reg := findSession_id hfind
  simp only [DB.updateSession, DB.findSession, hsid]
  exact find?_updateFirst _ f db.sessions s hfind (by simp [hfid, hsid])

/-- C2: `register_complete` on a session whose `paid_at` is unset rejects
with `paymentRequired` and leaves the database — hence the session's
status — unchanged, whatever the session's current step; and no workflow
request can create a state with a completed session whose `paid_at` is
unset. -/
theorem register_complete_requires_payment (db : DB) (reg : String)
    (s : RegistrationSession) (op : WorkflowOp)
    (hfind : db.findSession reg = some s) (hpaid : s.paid_at = none) :
    register_complete db reg = (.paymentRequired, db) ∧
    (completedImpliesPaid db → completedImpliesPaid (applyOp db op)) :=
  ⟨by simp [register_complete, hfind, hpaid],
   fun h => completedImpliesPaid_applyOp db op h⟩

/-- Witness for C2: completing the unpaid step-3 registration is rejected
and the database is untouched, and one concrete request preserves the
completed-implies-paid invariant. -/
theorem register_complete_requires_payment_witness :
    register_complete egProgressDB "r1" = (.paymentRequired, egProgressDB) ∧
    (completedImpliesPaid egProgressDB →
      completedImpliesPaid (applyOp egProgressDB (.complete "r1"))) :=
  register_complete_requires_payment egProgressDB "r1" egProgressSession
    (.complete "r1") rfl rfl

/-- C7: cancelling a completed session refuses with `alreadyCompleted`
and returns the database unchanged: no session, user or profile row is
deleted or modified on the refused path. -/
theorem register_cancel_completed_refuses (db : DB) (reg : String)
    (s : RegistrationSession)
    (hfind : db.findSession reg = some s) (hst : s.status = "completed") :
    register_cancel db reg = (.alreadyCompleted, db) := by
  simp [register_cancel, hfind, hst]

/-- Witness for C7 at the concrete completed registration. -/
theorem register_cancel_completed_refuses_witness :
    register_cancel egCompletedDB "r1" = (.alreadyCompleted, egCompletedDB) :=
  register_cancel_completed_refuses egCompletedDB "r1" egCompletedSession rfl rfl

/-- C6: cancelling a non-completed session reports canceled and deletes
the session, its user and its profile in the one resulting commit: all
three lookups come back absent afterwards (given the database's key
uniqueness and the session's user row). -/
theorem register_cancel_deletes_all (db : DB) (reg : String)
    (s : RegistrationSession) (u : UserRec)
    (hwf : db.wellFormed) (hfind : db.findSession reg = some s)
    (hst : s.status ≠ "completed") (huser : db.findUser s.user_id = some u) :
    (register_cancel db reg).1 = .canceled ∧
    ((register_cancel db reg).2).findSession reg = none ∧
    ((register_cancel db reg).2).findUser s.user_id = none ∧
    ((register_cancel db reg).2).findProfile s.user_id = none := by
  have hsid : s.id = reg := findSession_id hfind
  have huid : u.id = s.user_id := findUser_id huser
  have hcan : register_cancel db reg = (.canceled, cancel_and_delete db s) := by
    simp [register_cancel, hfind, hst]
  rw [hcan]
  simp only [cancel_and_delete, huser]
  refine ⟨trivial, ?_, ?_, ?_⟩
  · simp only [DB.findSession]
    rw [hsid]
    exact find?_eraseFirst_nodup (fun t => t.id) reg db.sessions hwf.1
  · simp only [DB.findUser]
    rw [huid]
    exact find?_eraseFirst_nodup (fun x => x.id) s.user_id db.users hwf.2.1
  · cases hpr : db.findProfile u.id with
    | none =>
      simp only [DB.findProfile]
      rw [← huid]
      exact hpr
    | some pr =>
      simp only [DB.findProfile]
      have hpru : pr.user_id = u.id := findProfile_user_id hpr
      rw [hpru, huid]
      exact find?_eraseFirst_nodup (fun p => p.user_id) s.user_id db.profiles hwf.2.2

/-- Witness for C6: cancelling the in-progress registration deletes its
session, user and profile rows. -/
theorem register_cancel_deletes_all_witness :
    (register_cancel egProgressDB "r1").1 = .canceled ∧
    ((register_cancel egProgressDB "r1").2).findSession "r1" = none ∧
    ((register_cancel egProgressDB "r1").2).findUser 1 = none ∧
    ((register_cancel egProgressDB "r1").2).findProfile 1 = none :=
  register_cancel_deletes_all egProgressDB "r1" egProgressSession egUser
    (by unfold DB.wellFormed; refine ⟨?_, ?_, ?_⟩ <;> decide) rfl (by decide) rfl

/-- C9: when a user with the normalized email already exists, submitting
step 1 with any email that normalizes (strip + lowercase) to it fails
with `emailAlreadyRegistered` and creates no user, profile or session
row: the database is returned unchanged. -/
theorem register_submit_email_taken (db : DB) (u : UserRec)
    (first_name last_name address country email password : String)
    (uid : Int) (rid : String)
    (hu : u ∈ db.users) (hnorm : pyLower (pyStrip email) = u.email) (hne : u.email ≠ "") :
    register_submit db first_name last_name address country email password uid rid
      = (.emailAlreadyRegistered, db) := by
  simp only [register_submit, hnorm]
  rw [if_neg hne, if_pos (List.any_eq_true.mpr ⟨u, hu, by simp⟩)]

/-- Witness for C9: `" A@X.com "` normalizes to the taken `"a@x.com"` and
is rejected without touching the database. -/
theorem register_submit_email_taken_witness :
    register_submit egProgressDB "F" "L" "Ad" "C" " A@X.com " "pw" 2 "r2"
      = (.emailAlreadyRegistered, egProgressDB) :=
  register_submit_email_taken egProgressDB egUser "F" "L" "Ad" "C" " A@X.com " "pw" 2 "r2"
    (by decide) (by decide) (by decide)

/-- C5 counterexample: a completed session is not immutable.  The
payment-success callback does not check the status, so replaying it
against the completed session `"r1"` (paid at 20 through checkout
`cs_1`) overwrites `paid_at` with 30 and the checkout id with `cs_2`. -/
theorem completed_session_mutated_by_payment_success :
    egCompletedDB.findSession "r1" = some egCompletedSession ∧
    egCompletedSession.status = "completed" ∧
    (register_payment_success egCompletedDB "r1" (some "cs_2") true
        (fun _ => .ok (some "paid")) 30).2.findSession "r1"
      = some { id := "r1", user_id := 1, step := 5, status := "completed",
               stripe_checkout_session_id := some "cs_2", paid_at := some 30 } ∧
    some "cs_2" ≠ egCompletedSession.stripe_checkout_session_id ∧
    some (30 : Int) ≠ egCompletedSession.paid_at :=
  ⟨rfl, rfl, rfl, by decide, by decide⟩

/-- C5 (amended): a completed session is never deleted, its status stays
`"completed"` and its step never decreases under any workflow request —
but it is not immutable: the payment-success callback can still
overwrite its `paid_at` and `stripe_checkout_session_id` (and raise its
step to 5), as the counterexample shows. -/
theorem completed_session_stays_completed (db : DB) (op : WorkflowOp) (reg : String)
    (s : RegistrationSession)
    (hfind : db.findSession reg = some s) (hst : s.status = "completed") :
    ∃ s', (applyOp db op).findSession reg = some s' ∧ s'.status = "completed" ∧
      s.step ≤ s'.step := by
  cases op with
  | submit f l a c e pw uid rid =>
    simp only [applyOp, register_submit]
    split
    · exact ⟨s, hfind, hst, le_refl _⟩
    · split
      · exact ⟨s, hfind, hst, le_refl _⟩
      · exact ⟨s, find?_append_some _ _ _ _ hfind, hst, le_refl _⟩
  | cancel reg₂ =>
    simp only [applyOp, register_cancel]
    cases hf2 : db.findSession reg₂ with
    | none => exact ⟨s, hfind, hst, le_refl _⟩
    | some r2 =>
      dsimp only
      by_cases hc : (r2.status == "completed") = true
      · rw [if_pos hc]
        exact ⟨s, hfind, hst, le_refl _⟩
      · rw [if_neg hc]
        have hr2 : r2.id = reg₂ := findSession_id hf2
        have hne : r2.id ≠ reg := by
          intro he
          have hrr : reg₂ = reg := hr2.symm.trans he
          rw [hrr, hfind] at hf2
          have hsr : s = r2 := Option.some.inj hf2
          rw [← hsr] at hc
          exact hc (by rw [hst]; rfl)
        exact ⟨s, findSession_cancel_and_delete db reg s r2 hfind hne, hst, le_refl _⟩
  | emailNext reg₂ now =>
    simp only [applyOp, register_email_next]
    cases hf2 : db.findSession reg₂ with
    | none => exact ⟨s, hfind, hst, le_refl _⟩
    | some r2 =>
      dsimp only
      have hr2 : r2.id = reg₂ := findSession_id hf2
      have hf2' : db.findSession r2.id = some r2 := by rw [hr2]; exact hf2
      cases hu : db.findUser r2.user_id with
      | none =>
        dsimp only
        rcases findSession_updateSession_cases db reg s r2
            (fun t => { t with step := max t.step 3 }) hfind hf2' (fun x => rfl)
          with h | ⟨heq, h⟩
        · exact ⟨s, h, hst, le_refl _⟩
        · exact ⟨_, h, hst, le_max_left _ _⟩
      | some user =>
        dsimp only
        by_cases hv : user.email_verified_at = none
        · rw [if_pos hv]
          rcases findSession_updateSession_cases (db.updateUser user.id
              (fun u => { u with email_verified_at := some now })) reg s r2
              (fun t => { t with step := max t.step 3 })
              hfind hf2' (fun x => rfl) with h | ⟨heq, h⟩
          · exact ⟨s, h, hst, le_refl _⟩
          · exact ⟨_, h, hst, le_max_left _ _⟩
        · rw [if_neg hv]
          rcases findSession_updateSession_cases db reg s r2
              (fun t => { t with step := max t.step 3 }) hfind hf2' (fun x => rfl)
            with h | ⟨heq, h⟩
          · exact ⟨s, h, hst, le_refl _⟩
          · exact ⟨_, h, hst, le_max_left _ _⟩
  | twofaNext reg₂ =>
    simp only [applyOp, register_2fa_next]
    cases hf2 : db.findSession reg₂ with
    | none => exact ⟨s, hfind, hst, le_refl _⟩
    | some r2 =>
      dsimp only
      have hf2' : db.findSession r2.id = some r2 := by rw [findSession_id hf2]; exact hf2
      rcases findSession_updateSession_cases db reg s r2
          (fun t => { t with step := max t.step 4 }) hfind hf2' (fun x => rfl)
        with h | ⟨heq, h⟩
      · exact ⟨s, h, hst, le_refl _⟩
      · exact ⟨_, h, hst, le_max_left _ _⟩
  | paymentStart reg₂ ready sid =>
    simp only [applyOp, register_payment_start]
    cases hf2 : db.findSession reg₂ with
    | none => exact ⟨s, hfind, hst, le_refl _⟩
    | some r2 =>
      dsimp only
      cases ready with
      | false => exact ⟨s, hfind, hst, le_refl _⟩
      | true =>
        simp only [Bool.not_true, Bool.false_eq_true, if_false]
        have hf2' : db.findSession r2.id = some r2 := by rw [findSession_id hf2]; exact hf2
        rcases findSession_updateSession_cases db reg s r2
            (fun t => { t with stripe_checkout_session_id := some sid })
            hfind hf2' (fun x => rfl)
          with h | ⟨heq, h⟩
        · exact ⟨s, h, hst, le_refl _⟩
        · exact ⟨_, h, hst, le_refl _⟩
  | paymentSuccess reg₂ sid? ready retrieve now =>
    simp only [applyOp, register_payment_success]
    cases hf2 : db.findSession reg₂ with
    | none => exact ⟨s, hfind, hst, le_refl _⟩
    | some r2 =>
      dsimp only
      cases ready with
      | false => exact ⟨s, hfind, hst, le_refl _⟩
      | true =>
        simp only [Bool.not_true, Bool.false_eq_true, if_false]
        cases sid? with
        | none => exact ⟨s, hfind, hst, le_refl _⟩
        | some sid =>
          dsimp only
          cases hret : retrieve sid with
          | err => exact ⟨s, hfind, hst, le_refl _⟩
          | ok ps =>
            dsimp only
            by_cases hps : ps ≠ some "paid"
            · rw [if_pos hps]
              exact ⟨s, hfind, hst, le_refl _⟩
            · rw [if_neg hps]
              have hf2' : db.findSession r2.id = some r2 := by
                rw [findSession_id hf2]; exact hf2
              rcases findSession_updateSession_cases db reg s r2
                  (fun t => { t with paid_at := some now, step := max t.step 5,
                                     stripe_checkout_session_id := some sid })
                  hfind hf2' (fun x => rfl) with h | ⟨heq, h⟩
              · exact ⟨s, h, hst, le_refl _⟩
              · exact ⟨_, h, hst, le_max_left _ _⟩
  | complete reg₂ =>
    simp only [applyOp, register_complete]
    cases hf2 : db.findSession reg₂ with
    | none => exact ⟨s, hfind, hst, le_refl _⟩
    | some r2 =>
      dsimp only
      by_cases hp : r2.paid_at = none
      · rw [if_pos hp]
        exact ⟨s, hfind, hst, le_refl _⟩
      · rw [if_neg hp]
        have hf2' : db.findSession r2.id = some r2 := by rw [findSession_id hf2]; exact hf2
        rcases findSession_updateSession_cases db reg s r2
            (fun t => { t with status := "completed", step := max t.step 5 })
            hfind hf2' (fun x => rfl)
          with h | ⟨heq, h⟩
        · exact ⟨s, h, hst, le_refl _⟩
        · exact ⟨_, h, rfl, le_max_left _ _⟩

/-- Witness for the amended C5: replaying the payment callback against
the completed registration leaves it completed at step 5 (even though it
rewrites the payment fields). -/
theorem completed_session_stays_completed_witness :
    ∃ s', (applyOp egCompletedDB (.paymentSuccess "r1" (some "cs_2") true
        (fun _ => .ok (some "paid")) 30)).findSession "r1" = some s' ∧
      s'.status = "completed" ∧ egCompletedSession.step ≤ s'.step :=
  completed_session_stays_completed egCompletedDB
    (.paymentSuccess "r1" (some "cs_2") true (fun _ => .ok (some "paid")) 30)
    "r1" egCompletedSession rfl rfl

/-- C8: each step-advancing handler sets the session's step to the
maximum of its current value and the target step — 3 for the email
advance, 4 for the 2FA advance, 5 for the confirmed payment callback and
for completion — the payment callback never lowers the step on any of
its paths, and an unpaid completion leaves the database unchanged; so
the step never decreases, also under repeated or out-of-order
submissions. -/
theorem step_advances_monotone (db : DB) (reg : String) (s : RegistrationSession)
    (now now' : Int) (sid : String) (sid? : Option String) (ready : Bool)
    (retrieve retrieve' : String → RetrieveResult)
    (hfind : db.findSession reg = some s)
    (hret : retrieve sid = .ok (some "paid")) :
    (register_email_next db reg now).2.findSession reg
      = some { s with step := max s.step 3 } ∧
    (register_2fa_next db reg).2.findSession reg
      = some { s with step := max s.step 4 } ∧
    (register_payment_success db reg (some sid) true retrieve now).2.findSession reg
      = some { s with paid_at := some now, step := max s.step 5,
                      stripe_checkout_session_id := some sid } ∧
    (∃ s', (register_payment_success db reg sid? ready retrieve' now').2.findSession reg
        = some s' ∧ s.step ≤ s'.step) ∧
    (s.paid_at = none → (register_complete db reg).2 = db) ∧
    (s.paid_at ≠ none → (register_complete db reg).2.findSession reg
      = some { s with status := "completed", step := max s.step 5 }) := by
  refine ⟨?_, ?_, ?_, ?_, ?_, ?_⟩
  · simp only [register_email_next, hfind]
    cases hu : db.findUser s.user_id with
    | none =>
      exact findSession_updateSession_self db reg s _ hfind rfl
    | some user =>
      dsimp only
      by_cases hv : user.email_verified_at = none
      · rw [if_pos hv]
        exact findSession_updateSession_self (db.updateUser user.id
          (fun u => { u with email_verified_at := some now })) reg s _ hfind rfl
      · rw [if_neg hv]
        exact findSession_updateSession_self db reg s _ hfind rfl
  · simp only [register_2fa_next, hfind]
    exact findSession_updateSession_self db reg s _ hfind rfl
  · simp only [register_payment_success, hfind]
    simp only [Bool.not_true, Bool.false_eq_true, if_false]
    rw [hret]
    dsimp only
    rw [if_neg (by simp)]
    exact findSession_updateSession_self db reg s _ hfind rfl
  · simp only [register_payment_success, hfind]
    cases ready with
    | false => exact ⟨s, hfind, le_refl _⟩
    | true =>
      simp only [Bool.not_true, Bool.false_eq_true, if_false]
      cases sid? with
      | none => exact ⟨s, hfind, le_refl _⟩
      | some sid2 =>
        dsimp only
        cases hret2 : retrieve' sid2 with
        | err => exact ⟨s, hfind, le_refl _⟩
        | ok ps =>
          dsimp only
          by_cases hps : ps ≠ some "paid"
          · rw [if_pos hps]
            exact ⟨s, hfind, le_refl _⟩
          · rw [if_neg hps]
            exact ⟨_, findSession_updateSession_self db reg s _ hfind rfl,
              le_max_left _ _⟩
  · intro hp
    simp [register_complete, hfind, hp]
  · intro hp
    simp only [register_complete, hfind]
    rw [if_neg hp]
    exact findSession_updateSession_self db reg s _ hfind rfl

/-- Witness for C8 at the step-3 unpaid registration, with a payment
lookup that reports paid. -/
theorem step_advances_monotone_witness :
    (register_email_next egProgressDB "r1" 10).2.findSession "r1"
      = some { egProgressSession with step := max egProgressSession.step 3 } ∧
    (register_2fa_next egProgressDB "r1").2.findSession "r1"
      = some { egProgressSession with step := max egProgressSession.step 4 } ∧
    (register_payment_success egProgressDB "r1" (some "cs_9") true
        (fun _ => .ok (some "paid")) 10).2.findSession "r1"
      = some { egProgressSession with
               paid_at := some 10, step := max egProgressSession.step 5,
               stripe_checkout_session_id := some "cs_9" } ∧
    (∃ s', (register_payment_success egProgressDB "r1" none false
        (fun _ => .err) 21).2.findSession "r1" = some s' ∧
      egProgressSession.step ≤ s'.step) ∧
    (egProgressSession.paid_at = none →
      (register_complete egProgressDB "r1").2 = egProgressDB) ∧
    (egProgressSession.paid_at ≠ none →
      (register_complete egProgressDB "r1").2.findSession "r1"
        = some { egProgressSession with
                 status := "completed", step := max egProgressSession.step 5 }) :=
  step_advances_monotone egProgressDB "r1" egProgressSession 10 21 "cs_9" none false
    (fun _ => .ok (some "paid")) (fun _ => .err) rfl rfl

/-- C10: step 1 creates its RegistrationSession with `step = 2`
(overriding the model default of 1), and every workflow request keeps
every session's step within 2..5 — no session is ever observable at
step 1. -/
theorem sessions_start_at_2_and_stay_in_range (db : DB) (op : WorkflowOp)
    (f l a c e pw : String) (uid : Int) (rid : String) (res : SubmitResult) (db' : DB)
    (hsub : register_submit db f l a c e pw uid rid = (res, db'))
    (hrange : stepInRange db) :
    (db'.sessions = db.sessions ∨
      ∃ r, db'.sessions = db.sessions ++ [r] ∧ r.step = 2 ∧ r.status = "in_progress"
        ∧ r.id = rid) ∧
    stepInRange (applyOp db op) := by
  constructor
  · simp only [register_submit] at hsub
    split at hsub
    · cases hsub
      exact Or.inl rfl
    · split at hsub
      · cases hsub
        exact Or.inl rfl
      · cases hsub
        exact Or.inr ⟨_, rfl, rfl, rfl, rfl⟩
  · exact stepInRange_applyOp db op hrange

/-- Witness for C10: a fresh registration is appended at step 2 and a
concrete request keeps all steps within 2..5. -/
theorem sessions_start_at_2_and_stay_in_range_witness :
    ((register_submit egProgressDB "F" "L" "Ad" "C" "b@y.com" "pw" 2 "r2").2.sessions
        = egProgressDB.sessions ∨
      ∃ r, (register_submit egProgressDB "F" "L" "Ad" "C" "b@y.com" "pw" 2 "r2").2.sessions
          = egProgressDB.sessions ++ [r] ∧ r.step = 2 ∧ r.status = "in_progress"
        ∧ r.id = "r2") ∧
    stepInRange (applyOp egProgressDB (.twofaNext "r1")) :=
  sessions_start_at_2_and_stay_in_range egProgressDB (.twofaNext "r1")
    "F" "L" "Ad" "C" "b@y.com" "pw" 2 "r2"
    (register_submit egProgressDB "F" "L" "Ad" "C" "b@y.com" "pw" 2 "r2").1
    (register_submit egProgressDB "F" "L" "Ad" "C" "b@y.com" "pw" 2 "r2").2
    rfl (by unfold stepInRange; decide)

end LiveCV
